import Mathlib

/-!
Verification of the selection / filtering logic of the multi-select dropdown
widget (SelectPanel and Dropdown components).  Pure functions of the source
are embedded as Lean functions; the stateful effects around filtering are
embedded as explicit folds over event lists.
-/

set_option autoImplicit false

/-- Embeds the TS interface named Option of the widget:
label, value, an optional disabled flag (absent means false) and the
new-option marker field written as two underscores, isNew, two underscores
in the source.  Named Opt here because Option is taken by the core library. -/
structure Opt where
  label : String
  value : String
  disabled : Bool := false
  isNew : Bool := false
deriving DecidableEq, Repr

/-- Modelled from the spec: helper for the default filter, which lives in
lib/simple-match-utils and is not among the given source files.  Decides
whether the character list sub occurs contiguously inside hay. -/
def hasSub (hay sub : List Char) : Bool :=
  match hay with
  | [] => sub.isEmpty
  | _ :: t => sub.isPrefixOf hay || hasSub t sub

/-- Modelled from the spec: case-normalized substring containment, the
matching rule of the default filter.  Lowering is applied per character of
the underlying character lists. -/
def containsText (hay needle : String) : Bool :=
  hasSub (hay.data.map Char.toLower) (needle.data.map Char.toLower)

/-- Modelled from the spec: the default filter of lib/simple-match-utils
(missing from the given sources).  Empty query returns the candidates
unchanged; otherwise it keeps exactly the options whose label contains the
query case-insensitively as a substring. -/
def filterOptions (options : List Opt) (text : String) : List Opt :=
  if text = "" then options
  else options.filter fun o => containsText o.label text

/-- Embeds selectAllValues of SelectPanel (src part_000, lines 74-89).
The boolean customFilterOptions records whether a replacement filter
function was supplied by the host; the source only tests it for truthiness
when choosing the materialization source. -/
def selectAllValues (customFilterOptions : Bool)
    (options filteredOptions value : List Opt) (checked : Bool) : List Opt :=
  let filteredValues := (filteredOptions.filter fun o => !o.disabled).map Opt.value
  if checked then
    let selectedValues := value.map Opt.value
    let finalSelectedValues := selectedValues ++ filteredValues
    (if customFilterOptions then filteredOptions else options).filter fun o =>
      finalSelectedValues.contains o.value
  else
    value.filter fun o => !filteredValues.contains o.value

/-- Embeds the JavaScript Array findIndex method as used by
isAllOptionSelected: index of the first element satisfying the predicate,
and -1 when no element does. -/
def findIndex (p : Opt → Bool) : List Opt → Int
  | [] => -1
  | o :: rest =>
    if p o then 0
    else
      let r := findIndex p rest
      if r == -1 then -1 else r + 1

/-- Embeds the first component of the memo pair of SelectPanel
(src part_000, lines 165-174): every non-disabled filtered option has its
value present in the selection. -/
def isAllOptionSelected (filteredOptions value : List Opt) : Bool :=
  (filteredOptions.filter fun o => !o.disabled).all fun o =>
    findIndex (fun v => v.value == o.value) value != -1

/-- Embeds the second component of the same memo pair: the filtered list
holds at least one non-disabled option. -/
def hasSelectableOptions (filteredOptions : List Opt) : Bool :=
  (filteredOptions.filter fun o => !o.disabled).length != 0

/-- Embeds skipIndex of SelectPanel (src part_000, lines 60-67). -/
def skipIndex (disableSearch hasSelectAll : Bool) : Nat :=
  (if disableSearch then 0 else 1) + (if hasSelectAll then 1 else 0)

/-- Embeds updateFocus of SelectPanel (src part_000, lines 154-159).
optionsLength is the length of the full candidate list (the source reads
options.length, not the filtered list). -/
def updateFocus (focusIndex offset : Int) (optionsLength skipIdx : Nat) : Int :=
  let newFocus := focusIndex + offset
  let clamped := max 0 newFocus
  min clamped ((optionsLength : Int) + max ((skipIdx : Int) - 1) 0)

/-- Events of the asynchronous filtering effect: a filter request is issued
for a query, and later resolves either with a list (fulfilled promise) or
with an error message (rejected promise). -/
inductive FilterEvent where
  | issue (id : Nat) (query : String)
  | resolve (id : Nat) (outcome : Except String (List Opt))
deriving Repr

/-- Embeds the effect getFilteredOptions().then(setFilteredOptions) of
SelectPanel (src part_000, lines 176-178): a fulfilled promise
unconditionally overwrites the visible filtered list; a rejected promise has
no fulfillment handler attached, so the state is left unchanged. -/
def stepFilteredOptions (visible : List Opt) (e : FilterEvent) : List Opt :=
  match e with
  | .issue _ _ => visible
  | .resolve _ (.ok r) => r
  | .resolve _ (.error _) => visible

/-- Runs the filtering effect of the source over a whole event list. -/
def runFilterEvents (init : List Opt) (events : List FilterEvent) : List Opt :=
  events.foldl stepFilteredOptions init

/-- Modelled from the spec: stale-response suppression via sequence numbers,
the behaviour the spec prescribes for the same effect.  The state carries the
id of the most recently issued request and a resolution is applied only when
its id matches it. -/
def runFilterEventsLatestOnly (init : List Opt) (events : List FilterEvent) :
    List Opt :=
  (events.foldl
    (fun st e =>
      match e with
      | FilterEvent.issue id _ => (id, st.2)
      | FilterEvent.resolve id (.ok r) => if id == st.1 then (st.1, r) else st
      | FilterEvent.resolve _ (.error _) => st)
    ((0, init) : Nat × List Opt)).2

/-- Embeds showCreatable of SelectPanel (src part_000, lines 183-186):
creatable is configured, the search text is non-empty (JS truthiness of a
string) and no filtered option has its value equal to the search text. -/
def showCreatable (isCreatable : Bool) (searchText : String)
    (filteredOptions : List Opt) : Bool :=
  isCreatable && !(searchText == "") &&
    !(filteredOptions.any fun e => e.value == searchText)

/-- The three mutually exclusive bodies the options list of the panel can
render below the select-all row. -/
inductive PanelBody where
  | optionsList
  | creatable
  | noOptionsMessage
deriving DecidableEq, Repr

/-- Embeds the render branch of SelectPanel (src part_000, lines 227-244):
the option rows when the filtered list is non-empty, else the creatable
affordance when showCreatable holds, else the no-options message. -/
def renderPanelBody (filteredOptions : List Opt) (isCreatable : Bool)
    (searchText : String) : PanelBody :=
  if filteredOptions.length != 0 then PanelBody.optionsList
  else if showCreatable isCreatable searchText filteredOptions then
    PanelBody.creatable
  else PanelBody.noOptionsMessage

/-- The pieces of SelectPanel state touched by the create-option flow. -/
structure PanelState where
  options : List Opt
  value : List Opt
  searchText : String
deriving DecidableEq, Repr

/-- Embeds handleOnCreateOption of SelectPanel (src part_000, lines 134-147)
in the default case where no custom onCreateOption was supplied: builds the
option from the search text with the new-option marker set, prepends it to
the candidate list, clears the search text and appends it to the selection. -/
def handleOnCreateOption (s : PanelState) : PanelState :=
  let newOption : Opt := { label := s.searchText, value := s.searchText,
                           disabled := false, isNew := true }
  { options := newOption :: s.options
    value := s.value ++ [newOption]
    searchText := "" }

/-! ### Helper lemmas -/

theorem hasSub_eq_true_iff (hay sub : List Char) :
    hasSub hay sub = true ↔ sub <:+: hay := by
  induction hay with
  | nil => simp [hasSub]
  | cons a t ih =>
    simp [hasSub, List.infix_cons_iff, ih, Bool.or_eq_true]

theorem findIndex_cons_eq (p : Opt → Bool) (o : Opt) (rest : List Opt) :
    findIndex p (o :: rest) =
      if p o then 0
      else if findIndex p rest == -1 then -1 else findIndex p rest + 1 := rfl

theorem neg_one_le_findIndex (p : Opt → Bool) (l : List Opt) :
    -1 ≤ findIndex p l := by
  induction l with
  | nil => simp [findIndex]
  | cons o rest ih =>
    rw [findIndex_cons_eq]
    by_cases hp : p o = true
    · rw [if_pos hp]; omega
    · rw [if_neg hp]
      by_cases hr : findIndex p rest = -1
      · rw [if_pos (beq_iff_eq.mpr hr)]
      · rw [if_neg (fun hc => hr (beq_iff_eq.mp hc))]; omega

theorem findIndex_bne_neg_one (p : Opt → Bool) (l : List Opt) :
    (findIndex p l != -1) = true ↔ ∃ o ∈ l, p o = true := by
  rw [bne_iff_ne]
  induction l with
  | nil => simp [findIndex]
  | cons o rest ih =>
    rw [findIndex_cons_eq]
    by_cases hp : p o = true
    · rw [if_pos hp]
      simp [hp]
    · rw [if_neg hp]
      by_cases hr : findIndex p rest = -1
      · rw [if_pos (beq_iff_eq.mpr hr)]
        simp [hp, ← ih, hr]
      · rw [if_neg (fun hc => hr (beq_iff_eq.mp hc))]
        have hb := neg_one_le_findIndex p rest
        constructor
        · intro _
          rcases ih.mp hr with ⟨w, hw, hpw⟩
          exact ⟨w, List.mem_cons_of_mem o hw, hpw⟩
        · intro _
          omega

theorem selectAllValues_true_eq (b : Bool) (options filtered value : List Opt) :
    selectAllValues b options filtered value true =
      (if b then filtered else options).filter fun o =>
        (value.map Opt.value ++
          (filtered.filter fun x => !x.disabled).map Opt.value).contains o.value :=
  rfl

theorem selectAllValues_false_eq (b : Bool) (options filtered value : List Opt) :
    selectAllValues b options filtered value false =
      value.filter fun o =>
        !((filtered.filter fun x => !x.disabled).map Opt.value).contains o.value :=
  rfl

theorem mem_map_value_filter_contains (src : List Opt) (vals : List String)
    (v : String) :
    v ∈ (src.filter fun o => vals.contains o.value).map Opt.value ↔
      v ∈ src.map Opt.value ∧ v ∈ vals := by
  constructor
  · intro h
    rcases List.mem_map.mp h with ⟨o, ho, hv⟩
    rcases List.mem_filter.mp ho with ⟨hsrc, hcond⟩
    subst hv
    exact ⟨List.mem_map_of_mem Opt.value hsrc, by simpa using hcond⟩
  · rintro ⟨hsrc, hvals⟩
    rcases List.mem_map.mp hsrc with ⟨o, ho, hv⟩
    subst hv
    exact List.mem_map_of_mem Opt.value
      (List.mem_filter.mpr ⟨ho, by simpa using hvals⟩)

/-! ### Claim theorems -/

/-- C3: with no custom filter supplied, the default filter returns exactly
the elements of the candidate list, in candidate order (a sublist), whose
label lower-cased has the lower-cased query as a contiguous substring, and
the empty query returns the candidate list unchanged. -/
theorem filterOptions_default_substring (L : List Opt) (q : String) :
    filterOptions L "" = L ∧
    List.Sublist (filterOptions L q) L ∧
    (∀ o : Opt, o ∈ filterOptions L q ↔
      o ∈ L ∧ (q = "" ∨
        q.data.map Char.toLower <:+: o.label.data.map Char.toLower)) := by
  refine ⟨by simp [filterOptions], ?_, ?_⟩
  · unfold filterOptions
    split
    · exact List.Sublist.refl L
    · exact List.filter_sublist L
  · intro o
    unfold filterOptions
    split
    · next hq => simp [hq]
    · next hq =>
      simp [List.mem_filter, containsText, hasSub_eq_true_iff, hq]

/-- C4: the all-selected flag is true exactly when every non-disabled option
of the filtered list has its value in the selection, it is vacuously true
when the filtered list has no non-disabled option, and the
no-selectable-options condition is computed as the separate flag
hasSelectableOptions. -/
theorem isAllOptionSelected_spec (f v : List Opt) :
    (isAllOptionSelected f v = true ↔
      ∀ o ∈ f, o.disabled = false → o.value ∈ v.map Opt.value) ∧
    ((f.filter fun o => !o.disabled) = [] → isAllOptionSelected f v = true) ∧
    (hasSelectableOptions f = true ↔ (f.filter fun o => !o.disabled) ≠ []) := by
  have key : ∀ o : Opt,
      ((findIndex (fun w => w.value == o.value) v != -1) = true) ↔
        o.value ∈ v.map Opt.value := by
    intro o
    rw [findIndex_bne_neg_one]
    simp [List.mem_map]
  refine ⟨?_, ?_, ?_⟩
  · simp only [isAllOptionSelected, List.all_eq_true, List.mem_filter, key,
      Bool.not_eq_true', and_imp]
  · intro h
    unfold isAllOptionSelected
    rw [h]
    rfl
  · simp [hasSelectableOptions, bne_iff_ne, List.length_eq_zero]

/-- Witness for C4 at a concrete input: a filtered list whose only option is
disabled makes the all-selected flag vacuously true against the empty
selection. -/
theorem isAllOptionSelected_spec_witness :
    isAllOptionSelected [⟨"B", "b", true, false⟩] [] = true :=
  (isAllOptionSelected_spec [⟨"B", "b", true, false⟩] []).2.1 (by decide)

/-- C1 (amended): bulk select-all with checked true materializes the union
of the prior selected values and the visible non-disabled values from the
full candidate list when no custom filter is supplied and from the visible
list otherwise; the selection status of options hidden by the filter is
preserved when no custom filter is supplied and every previously selected
value occurs in the candidate list. -/
theorem selectAllValues_true_spec (b : Bool) (options filtered value : List Opt)
    (hsub : ∀ o ∈ value, o.value ∈ options.map Opt.value) :
    (∀ v : String,
      v ∈ (selectAllValues b options filtered value true).map Opt.value ↔
        v ∈ (if b then filtered else options).map Opt.value ∧
          (v ∈ value.map Opt.value ∨
            v ∈ (filtered.filter fun x => !x.disabled).map Opt.value)) ∧
    (b = false → ∀ v : String, v ∉ filtered.map Opt.value →
      (v ∈ (selectAllValues b options filtered value true).map Opt.value ↔
        v ∈ value.map Opt.value)) := by
  have hmain : ∀ v : String,
      v ∈ (selectAllValues b options filtered value true).map Opt.value ↔
        v ∈ (if b then filtered else options).map Opt.value ∧
          (v ∈ value.map Opt.value ∨
            v ∈ (filtered.filter fun x => !x.disabled).map Opt.value) := by
    intro v
    rw [selectAllValues_true_eq, mem_map_value_filter_contains, List.mem_append]
  refine ⟨hmain, ?_⟩
  rintro rfl v hv
  rw [hmain v]
  constructor
  · rintro ⟨_, hor⟩
    cases hor with
    | inl h => exact h
    | inr h =>
      exact absurd
        (List.map_subset Opt.value (List.filter_subset' filtered) h) hv
  · intro hval
    refine ⟨?_, Or.inl hval⟩
    rcases List.mem_map.mp hval with ⟨o, ho, hov⟩
    subst hov
    simpa using hsub o ho

/-- Witness for C1 (amended) at a concrete input: with no custom filter,
option A selected and hidden by the filter stays selected after
select-all. -/
theorem selectAllValues_true_spec_witness :
    "a" ∈ (selectAllValues false [⟨"A", "a", false, false⟩]
        [] [⟨"A", "a", false, false⟩] true).map Opt.value :=
  ((selectAllValues_true_spec false [⟨"A", "a", false, false⟩]
      [] [⟨"A", "a", false, false⟩] (by decide)).2 rfl "a"
        (by decide)).mpr (by decide)

/-- Counterexample to C1 as stated: with a custom filter supplied the result
is materialized from the visible list only, so option A, previously selected
but hidden by the current filter, is dropped by select-all with checked true
even though the claim says the selection status of hidden options is never
altered. -/
theorem selectAllValues_true_counterexample :
    selectAllValues true
        [⟨"A", "a", false, false⟩, ⟨"C", "c", false, false⟩]
        [⟨"C", "c", false, false⟩] [⟨"A", "a", false, false⟩] true
      = [⟨"C", "c", false, false⟩] ∧
    "a" ∉ (selectAllValues true
        [⟨"A", "a", false, false⟩, ⟨"C", "c", false, false⟩]
        [⟨"C", "c", false, false⟩] [⟨"A", "a", false, false⟩] true).map
          Opt.value ∧
    "a" ∈ ([⟨"A", "a", false, false⟩] : List Opt).map Opt.value ∧
    "a" ∉ ([⟨"C", "c", false, false⟩] : List Opt).map Opt.value := by
  decide

/-- C2 (amended): bulk select-all with checked false keeps exactly the prior
selected options whose value does not occur among the visible non-disabled
options, in prior-selection order; in particular a selected disabled option
that is visible is kept, not removed. -/
theorem selectAllValues_false_spec (b : Bool)
    (options filtered value : List Opt) :
    List.Sublist (selectAllValues b options filtered value false) value ∧
    (∀ o : Opt, o ∈ selectAllValues b options filtered value false ↔
      o ∈ value ∧
        o.value ∉ (filtered.filter fun x => !x.disabled).map Opt.value) := by
  constructor
  · rw [selectAllValues_false_eq]
    exact List.filter_sublist value
  · intro o
    rw [selectAllValues_false_eq, List.mem_filter]
    simp

/-- Counterexample to C2 as stated: the selected option B is visible (its
value b occurs in the visible set) and disabled; the claim says every option
whose value appears in the visible set is removed, but the code keeps B
because it only removes values of visible non-disabled options. -/
theorem selectAllValues_false_counterexample :
    selectAllValues false [⟨"B", "b", true, false⟩] [⟨"B", "b", true, false⟩]
        [⟨"B", "b", true, false⟩] false = [⟨"B", "b", true, false⟩] ∧
    "b" ∈ ([⟨"B", "b", true, false⟩] : List Opt).map Opt.value := by
  decide

/-- C10: with no custom filter, the selection produced by select-all with
checked true is a sublist of the candidate list (hence in candidate order,
not prior-selection order), any value absent from the candidate list is
dropped, and a concrete run where a prior selection in order B, A comes back
in candidate order A, B. -/
theorem selectAllValues_true_candidate_order
    (options filtered value : List Opt) :
    List.Sublist (selectAllValues false options filtered value true) options ∧
    (∀ v : String, v ∉ options.map Opt.value →
      v ∉ (selectAllValues false options filtered value true).map Opt.value) ∧
    selectAllValues false
        [⟨"A", "a", false, false⟩, ⟨"B", "b", false, false⟩]
        [⟨"A", "a", false, false⟩, ⟨"B", "b", false, false⟩]
        [⟨"B", "b", false, false⟩, ⟨"A", "a", false, false⟩] true
      = [⟨"A", "a", false, false⟩, ⟨"B", "b", false, false⟩] := by
  have hs : List.Sublist (selectAllValues false options filtered value true)
      options := by
    rw [selectAllValues_true_eq]
    exact List.filter_sublist options
  refine ⟨hs, ?_, by decide⟩
  intro v hv hmem
  rcases List.mem_map.mp hmem with ⟨o, ho, hov⟩
  subst hov
  exact hv (List.mem_map_of_mem Opt.value (hs.subset ho))

/-- Witness for C10 at a concrete input: the previously selected option Z,
whose value does not occur in the candidate list, is dropped by
select-all. -/
theorem selectAllValues_true_candidate_order_witness :
    "z" ∉ (selectAllValues false [⟨"A", "a", false, false⟩] []
        [⟨"Z", "z", false, false⟩] true).map Opt.value :=
  (selectAllValues_true_candidate_order [⟨"A", "a", false, false⟩] []
      [⟨"Z", "z", false, false⟩]).2.1 "z" (by decide)

/-- C6: a rejected filter promise leaves the visible filtered list
unchanged: appending a failing resolution to any event history yields the
same visible state as the history alone, and the run is a total function on
events, so the failure never surfaces past the effect. -/
theorem runFilterEvents_error_keeps_state (init : List Opt)
    (events : List FilterEvent) (id : Nat) (msg : String) :
    runFilterEvents init
        (events ++ [FilterEvent.resolve id (Except.error msg)]) =
      runFilterEvents init events := by
  unfold runFilterEvents
  rw [List.foldl_append]
  rfl

/-- C5 fails on the code: the effect applies every resolution in arrival
order with no sequence-number guard.  On the trace where request 1 and then
request 2 are issued and request 2 resolves before request 1, the final
visible state is the result of the superseded request 1; the latest-only
semantics prescribed by the spec keeps the result of request 2 instead. -/
theorem runFilterEvents_stale_overwrite :
    runFilterEvents []
        [FilterEvent.issue 1 "a", FilterEvent.issue 2 "b",
         FilterEvent.resolve 2 (Except.ok [⟨"B", "b", false, false⟩]),
         FilterEvent.resolve 1 (Except.ok [⟨"A", "a", false, false⟩])]
      = [⟨"A", "a", false, false⟩] ∧
    runFilterEventsLatestOnly []
        [FilterEvent.issue 1 "a", FilterEvent.issue 2 "b",
         FilterEvent.resolve 2 (Except.ok [⟨"B", "b", false, false⟩]),
         FilterEvent.resolve 1 (Except.ok [⟨"A", "a", false, false⟩])]
      = [⟨"B", "b", false, false⟩] ∧
    ([⟨"A", "a", false, false⟩] : List Opt) ≠ [⟨"B", "b", false, false⟩] := by
  decide

/-- Counterexample to C7 as stated: the single candidate option has value
zzz equal to the query, so the claim says the create affordance must not be
shown; but the default filter removes the option (its label A does not
contain zzz), the filtered list is empty, and the panel renders the
creatable affordance anyway. -/
theorem renderPanelBody_creatable_counterexample :
    renderPanelBody (filterOptions [⟨"A", "zzz", false, false⟩] "zzz") true
        "zzz" = PanelBody.creatable ∧
    "zzz" ∈ ([⟨"A", "zzz", false, false⟩] : List Opt).map Opt.value := by
  decide

/-- C7 (amended): on a creatable widget the create affordance is rendered
iff the query is non-empty and no option at all survives the current filter;
the showCreatable flag itself compares the query only against visible option
values, never labels, and the render branch further requires the filtered
list to be empty. -/
theorem renderPanelBody_creatable_iff (f : List Opt) (c : Bool) (s : String) :
    renderPanelBody f c s = PanelBody.creatable ↔
      c = true ∧ s ≠ "" ∧ f = [] := by
  cases f with
  | nil =>
    cases c with
    | false => simp [renderPanelBody, showCreatable]
    | true =>
      by_cases hs : s = ""
      · subst hs
        simp [renderPanelBody, showCreatable]
      · simp [renderPanelBody, showCreatable, hs]
  | cons o t => simp [renderPanelBody]

/-- C8: with no custom creator, invoking the create flow on a non-empty
query builds the option whose label and value are both the query and whose
new-option marker is set, prepends it to the candidate list, appends it to
the selection, and clears the query. -/
theorem handleOnCreateOption_spec (s : PanelState) (hq : s.searchText ≠ "") :
    (handleOnCreateOption s).options =
      (⟨s.searchText, s.searchText, false, true⟩ : Opt) :: s.options ∧
    (handleOnCreateOption s).value =
      s.value ++ [(⟨s.searchText, s.searchText, false, true⟩ : Opt)] ∧
    (handleOnCreateOption s).searchText = "" :=
  ⟨rfl, rfl, rfl⟩

/-- Witness for C8 at the concrete scenario of the spec: candidate list
holding A, empty selection, query zzz. -/
theorem handleOnCreateOption_spec_witness :
    (handleOnCreateOption
        ⟨[⟨"A", "a", false, false⟩], [], "zzz"⟩).options =
      ⟨"zzz", "zzz", false, true⟩ :: [⟨"A", "a", false, false⟩] :=
  (handleOnCreateOption_spec ⟨[⟨"A", "a", false, false⟩], [], "zzz"⟩
    (by decide)).1

/-- Counterexample to C9 as stated: search enabled, no select-all, three
candidate options of which one is visible under the current filter.  The
visible row list has 2 rows (the search row and one option row), so the
claim bounds the focus index by 1; yet one arrow-down step from focus
index 1 yields 2, because the source clamps with the full candidate list
length. -/
theorem updateFocus_counterexample :
    updateFocus 1 1 3 (skipIndex false false) = 2 ∧
    ¬ updateFocus 1 1 3 (skipIndex false false) ≤
        (skipIndex false false : Int) + 1 - 1 := by
  decide

/-- C9 (amended): every focus update stays within the inclusive range from
0 to optionsLength + max(skipIndex - 1, 0), a bound computed from the full
candidate list length rather than the filtered row count. -/
theorem updateFocus_bounds (f o : Int) (n : Nat) (ds hsa : Bool) :
    0 ≤ updateFocus f o n (skipIndex ds hsa) ∧
    updateFocus f o n (skipIndex ds hsa) ≤
      (n : Int) + max ((skipIndex ds hsa : Int) - 1) 0 := by
  dsimp only [updateFocus]
  refine ⟨?_, min_le_right _ _⟩
  exact le_min (le_max_left 0 (f + o))
    (add_nonneg (Int.natCast_nonneg n) (le_max_right _ 0))
